import Mathlib

/-!
Verification of the InkPages reader core (src/content/content.js).

The development shallowly embeds the pure logic of the content script:
the HTML sanitizer (sanitizeHTML), the link validator and listing
extractor (createLink, extractListing), the article classifier
(isArticlePage), the pagination engine (setupPagination, nextPage,
prevPage, goToPage) and the listing renderer (renderListing, escapeHtml).

Browser built-ins used by the script (DOMParser, the WHATWG URL
constructor, DOM tree traversal and CSS selector matching) are not part
of the repository; they are modelled explicitly where the embedded logic
depends on them, and each such model carries a doc comment saying what
it stands for.  JavaScript strings are modelled as Lean strings (all
inputs considered are ASCII, where the two string models agree), and
JavaScript numbers as rationals (for layout measurements) or integers
(for page counts and indices).
-/

/-! ## JavaScript string primitives

JavaScript string methods used by content.js, embedded as structurally
recursive functions on the character list so that concrete inputs
evaluate inside the kernel. -/

/-- Whitespace recognised by the embedding; agrees with JavaScript
whitespace on the ASCII inputs considered here. -/
def isJsWs (c : Char) : Bool := c = ' ' || c = '\t' || c = '\n' || c = '\r'

/-- JavaScript String.prototype.trim. -/
def jsTrim (s : String) : String :=
  ⟨((s.data.dropWhile isJsWs).reverse.dropWhile isJsWs).reverse⟩

/-- JavaScript String.prototype.toLowerCase (ASCII range). -/
def jsToLower (s : String) : String := ⟨s.data.map Char.toLower⟩

/-- JavaScript String.prototype.startsWith. -/
def jsStartsWith (s p : String) : Bool := p.data.isPrefixOf s.data

/-- JavaScript String.prototype.length (code units; equal to the
character count on the ASCII inputs considered here). -/
def jsLength (s : String) : Nat := s.data.length

/-! ## Sanitizer (content.js lines 637-687)

sanitizeHTML parses its argument with DOMParser, rewrites the resulting
tree, and serializes doc.body.innerHTML.  DOMParser and innerHTML are
browser built-ins; the embedding works on the parsed tree directly: an
HtmlNode is an element (uppercase tag name, as DOM tagName reports for
HTML elements; lowercase attribute names, as the DOM stores them) or a
text node, and sanitizeHTML maps the list of children of doc.body. -/

inductive HtmlNode where
  | elem (tag : String) (attrs : List (String × String)) (children : List HtmlNode)
  | text (s : String)

/-- The event-handler attributes enumerated in content.js lines 642-652. -/
def eventAttributes : List String :=
  ["onabort", "onblur", "onchange", "onclick", "ondblclick", "onerror",
   "onfocus", "oninput", "onkeydown", "onkeypress", "onkeyup", "onload",
   "onmousedown", "onmousemove", "onmouseout", "onmouseover", "onmouseup",
   "onreset", "onresize", "onscroll", "onselect", "onsubmit", "onunload",
   "onbeforeunload", "onhashchange", "onmessage", "onoffline", "ononline",
   "onpagehide", "onpageshow", "onpopstate", "onstorage", "onanimationend",
   "onanimationiteration", "onanimationstart", "ontransitionend", "onwheel",
   "oncopy", "oncut", "onpaste", "ondrag", "ondragend", "ondragenter",
   "ondragleave", "ondragover", "ondragstart", "ondrop", "oncontextmenu"]

/-- The URL-bearing attributes checked for the javascript: scheme
(content.js line 661). -/
def urlAttributes : List String := ["href", "src", "action", "formaction", "xlink:href"]

/-- Elements removed outright by sanitizeHTML (content.js lines 678-684):
script/style/noscript, form and form controls, and
iframe/object/embed/applet.  Tag names are uppercase as in DOM tagName. -/
def removedTags : List String :=
  ["SCRIPT", "STYLE", "NOSCRIPT", "FORM", "INPUT", "BUTTON", "SELECT",
   "TEXTAREA", "IFRAME", "OBJECT", "EMBED", "APPLET"]

/-- Attribute filter of sanitizeHTML (content.js lines 654-675): drop the
enumerated event handlers; drop href/src/action/formaction/xlink:href
whose trimmed, lowercased value starts with "javascript:"; drop href
values starting with "data:" on non-IMG elements. -/
def keepAttribute (tag : String) (a : String × String) : Bool :=
  !(a.1 ∈ eventAttributes) &&
  !(a.1 ∈ urlAttributes && jsStartsWith (jsToLower (jsTrim a.2)) "javascript:") &&
  !(!(tag = "IMG") && a.1 = "href" && jsStartsWith (jsToLower (jsTrim a.2)) "data:")

/-- The tree rewrite performed by sanitizeHTML on the children of
doc.body: every element with a tag in removedTags is removed with its
subtree; every remaining element keeps only the attributes accepted by
keepAttribute.  (In the source the attribute pass runs over a snapshot
of all elements before the removals; since removal deletes whole
subtrees and never re-attaches nodes, the combined effect equals this
single recursive pass.) -/
def sanitizeHTML : List HtmlNode → List HtmlNode
  | [] => []
  | .text s :: rest => .text s :: sanitizeHTML rest
  | .elem tag attrs children :: rest =>
    if tag ∈ removedTags then sanitizeHTML rest
    else .elem tag (attrs.filter (keepAttribute tag)) (sanitizeHTML children) :: sanitizeHTML rest

/-- Removal of ASCII tab and newline characters, as the WHATWG URL
parser does before interpreting a URL string: a browser treats
"JAVA\tSCRIPT:..." in an href exactly as "JAVASCRIPT:...".  Used to
state what counts as a script-execution URI. -/
def stripTabsNewlines (s : String) : String :=
  ⟨s.data.filter (fun c => !(c = '\t' || c = '\n' || c = '\r'))⟩

/-- A value is a script-execution URI if, after the tab/newline removal
and case folding a browser URL parser performs, it starts with the
javascript: scheme. -/
def isScriptSchemeValue (v : String) : Bool :=
  jsStartsWith (jsToLower (jsTrim (stripTabsNewlines v))) "javascript:"

/-! ## Tag stripping (content.js lines 1596-1599)

stripHtmlTags removes every span matching the regular expression
pattern of one lower-than sign, a run of characters other than
greater-than, and a greater-than sign, then trims.  A lower-than sign
with no later greater-than sign matches nothing and is kept verbatim. -/

/-- One left-to-right pass of the tag-removing replacement: the flag
says whether we are inside a candidate tag, the buffer holds the
candidate's characters (in reverse) in case no closing bracket ever
comes. -/
def stripGo : Bool → List Char → List Char → List Char
  | false, _, [] => []
  | true, buf, [] => buf.reverse
  | false, _, c :: rest => if c = '<' then stripGo true [c] rest else c :: stripGo false [] rest
  | true, buf, c :: rest => if c = '>' then stripGo false [] rest else stripGo true (c :: buf) rest

/-- content.js stripHtmlTags: empty input short-circuits, otherwise tags
are removed and the result trimmed. -/
def stripHtmlTags (text : String) : String :=
  if text = "" then "" else jsTrim ⟨stripGo false [] text.data⟩

/-! ## URL model

createLink calls the browser's URL constructor with
window.location.origin as base.  The constructor is a browser built-in
(WHATWG URL standard), not repository code; this model covers the URL
shapes the claims exercise: absolute special (http/https) URLs,
absolute non-special (opaque-path) URLs such as javascript: and data:,
and origin-relative references.  Dot-segment and percent-encoding
normalization are not modelled; no input below requires them. -/

/-- The parts of window.location the content script reads. -/
structure JsLocation where
  scheme : String
  host : String
  pathname : String
deriving DecidableEq, Repr

/-- window.location.origin. -/
def locOrigin (loc : JsLocation) : String := loc.scheme ++ "://" ++ loc.host

/-- A parsed URL: special URLs (http/https) have a host and an origin;
non-special URLs (javascript:, data:, mailto:) have an opaque path and
origin "null". -/
structure JsUrl where
  scheme : String
  special : Bool
  host : String
  pathname : String
  search : Option String
  fragment : Option String
deriving DecidableEq, Repr

/-- url.origin: "null" for non-special schemes. -/
def urlOrigin (u : JsUrl) : String :=
  if u.special then u.scheme ++ "://" ++ u.host else "null"

/-- url.hash: empty when there is no fragment or the fragment is empty. -/
def urlHash (u : JsUrl) : String :=
  match u.fragment with
  | some f => if f = "" then "" else "#" ++ f
  | none => ""

/-- url.href: the serialized, normalized URL. -/
def urlHref (u : JsUrl) : String :=
  (if u.special then u.scheme ++ "://" ++ u.host else u.scheme ++ ":") ++ u.pathname ++
  (match u.search with | some q => "?" ++ q | none => "") ++
  (match u.fragment with | some f => "#" ++ f | none => "")

/-- Split a character list at the first occurrence of a delimiter;
the delimiter itself is consumed. -/
def splitAtFirst (d : Char) : List Char → List Char × Option (List Char)
  | [] => ([], none)
  | c :: rest =>
    if c = d then ([], some rest)
    else
      let p := splitAtFirst d rest
      (c :: p.1, p.2)

/-- Take characters up to (excluding) the first delimiter from the set;
the suffix keeps the delimiter. -/
def takeUntilAny (ds : List Char) : List Char → List Char × List Char
  | [] => ([], [])
  | c :: rest =>
    if c ∈ ds then ([], c :: rest)
    else
      let p := takeUntilAny ds rest
      (c :: p.1, p.2)

/-- A scheme is an ASCII letter followed by letters, digits, plus,
minus or dot (WHATWG URL). -/
def isSchemeChar (c : Char) : Bool := c.isAlpha || c.isDigit || c = '+' || c = '-' || c = '.'

/-- Split off a scheme prefix "scheme:" when the input has one. -/
def takeScheme (l : List Char) : Option (List Char × List Char) :=
  match splitAtFirst ':' l with
  | (before, some rest) =>
    match before with
    | [] => none
    | c :: cs => if c.isAlpha && cs.all isSchemeChar then some (c :: cs, rest) else none
  | (_, none) => none

/-- Parse path, query and fragment from the part after the host (or the
whole opaque path). -/
def parsePathSearchFrag (l : List Char) : String × Option String × Option String :=
  match splitAtFirst '#' l with
  | (beforeHash, frag) =>
    match splitAtFirst '?' beforeHash with
    | (path, search) =>
      (⟨path⟩, search.map (fun q => ⟨q⟩), frag.map (fun f => ⟨f⟩))

/-- Parse the part after "scheme:" of a special (http/https) URL:
requires a double slash and a non-empty host. -/
def parseSpecialRest (scheme : String) (rest : List Char) : Option JsUrl :=
  match rest with
  | '/' :: '/' :: r =>
    match takeUntilAny ['/', '?', '#'] r with
    | (hostC, r2) =>
      if hostC = [] then none
      else
        match parsePathSearchFrag r2 with
        | (path, search, frag) =>
          some { scheme := scheme, special := true, host := ⟨hostC.map Char.toLower⟩,
                 pathname := if path = "" then "/" else path, search := search, fragment := frag }
  | _ => none

/-- The URL constructor with window.location.origin as base (the only
base the content script ever passes; its path component is "/"). -/
def parseURL (href : String) (loc : JsLocation) : Option JsUrl :=
  match takeScheme href.data with
  | some (schemeC, rest) =>
    let scheme : String := ⟨schemeC.map Char.toLower⟩
    if scheme = "http" || scheme = "https" then parseSpecialRest scheme rest
    else
      match parsePathSearchFrag rest with
      | (path, search, frag) =>
        some { scheme := scheme, special := false, host := "",
               pathname := path, search := search, fragment := frag }
  | none =>
    match href.data with
    | '/' :: '/' :: r => parseSpecialRest loc.scheme ('/' :: '/' :: r)
    | '/' :: r =>
      match parsePathSearchFrag ('/' :: r) with
      | (path, search, frag) =>
        some { scheme := loc.scheme, special := true, host := loc.host,
               pathname := path, search := search, fragment := frag }
    | '#' :: r =>
      some { scheme := loc.scheme, special := true, host := loc.host,
             pathname := "/", search := none, fragment := some ⟨r⟩ }
    | '?' :: r =>
      match splitAtFirst '#' r with
      | (q, frag) =>
        some { scheme := loc.scheme, special := true, host := loc.host,
               pathname := "/", search := some ⟨q⟩, fragment := frag.map (fun f => ⟨f⟩) }
    | other =>
      match parsePathSearchFrag other with
      | (path, search, frag) =>
        some { scheme := loc.scheme, special := true, host := loc.host,
               pathname := "/" ++ path, search := search, fragment := frag }

/-! ## Link validation and listing extraction (content.js lines 322-631) -/

/-- A Link as produced by createLink: normalized absolute href, cleaned
text, external flag. -/
structure Link where
  href : String
  text : String
  isExternal : Bool
deriving DecidableEq, Repr

/-- An Item: a main link with its sub-links. -/
structure ListItem where
  main : Link
  subs : List Link
deriving DecidableEq, Repr

/-- A Section of the listing: optional short title with optional title
link, and the accumulated items. -/
structure ListingSection where
  title : Option String
  level : Option Nat
  titleHref : Option String
  items : List ListItem
deriving DecidableEq, Repr

/-- The ListingData structure returned by extractListing. -/
structure ListingData where
  siteName : String
  pageTitle : String
  sections : List ListingSection
  sourceUrl : String
deriving DecidableEq, Repr

/-- The navigational-boilerplate prefixes of the createLink denylist
regular expression (content.js line 379); matching is case-insensitive
and anchored at the start, and the optional dots after "more" make that
alternative equivalent to the bare prefix "more". -/
def denyPrefixes : List String :=
  ["home", "about", "contact", "login", "sign in", "sign up", "subscribe",
   "more", "menu", "search", "privacy", "terms", "cookie", "skip to"]

/-- Whether the cleaned link text matches the denylist. -/
def denylistMatch (t : String) : Bool :=
  denyPrefixes.any (fun p => jsStartsWith (jsToLower t) p)

/-- createLink (content.js lines 366-390): validate an (href, text)
candidate and build the normalized Link, or return none. -/
def createLink (loc : JsLocation) (href text : String) : Option Link :=
  if href = "" || text = "" then none
  else
    let t := jsTrim (stripHtmlTags text)
    if jsLength t < 5 || jsLength t > 400 then none
    else if jsStartsWith href "javascript:" then none
    else
      match parseURL href loc with
      | none => none
      | some url =>
        if urlHash url ≠ "" && url.pathname = loc.pathname && urlOrigin url = locOrigin loc then none
        else if denylistMatch t then none
        else some { href := urlHref url, text := t, isExternal := !(urlOrigin url = locOrigin loc) }

/-! ## The extraction traversal

extractListing walks the DOM in document order with a TreeWalker,
skipping boilerplate containers.  Selector matching, aria-label lookup,
heading lookup and the main-link/sub-link candidate enumeration inside a
container are DOM queries (browser built-ins); the walk is therefore
modelled as the sequence of per-node events the walker produces, while
the accumulation logic the claims are about — checkSectionHeader,
startNewSection, createLink, addIfNew, processContainer and the
fallback pass — is embedded from the source. -/

/-- What findMainLink and findSubLinks see of a container that holds at
least one link: the main-link candidates in the source's priority order
(aria-label, link around heading, heading around link, first link with
text of twenty or more characters), and the sub-link candidates in
document order (the source already excludes the main link element, its
ancestors and descendants, and aria-label links).  Each pair is the raw
(href, text) handed to createLink. -/
structure ContainerData where
  mainCands : List (String × String)
  subCands : List (String × String)
deriving DecidableEq, Repr

/-- One node visited by the TreeWalker.  h12 is present when the node is
an H1 or H2 element: its raw text content, the href of its closest or
contained link if any (as the DOM reports it), and its level.
sectionHeading is present when the node is a SECTION element with a
direct h1/h2 heading.  container is present when the node matches the
card-like container selectors and contains at least one link. -/
structure NodeEvent where
  h12 : Option (String × Option String × Nat)
  sectionHeading : Option (String × Option String)
  container : Option ContainerData
deriving DecidableEq, Repr

/-- The mutable state of the extraction walk: finished sections, the
section being accumulated, and the global de-duplication set of seen
hrefs (a Set in the source, a list here). -/
structure ExtState where
  sections : List ListingSection
  cur : ListingSection
  seen : List String
deriving DecidableEq, Repr

/-- checkSectionHeader (content.js lines 488-508): a heading is a
section header when its stripped, trimmed text is non-empty and at most
25 characters; the heading's own link href (if any) is passed through
untouched. -/
def checkSectionHeader (text : String) (linkHref : Option String) :
    Option (String × Option String) :=
  let t := jsTrim (stripHtmlTags text)
  if t = "" || jsLength t > 25 then none
  else some (t, linkHref)

/-- startNewSection (content.js lines 534-539): push the current
section if it has items, then open a new one. -/
def startNewSection (st : ExtState) (title : String) (level : Nat)
    (titleHref : Option String) : ExtState :=
  { sections := if st.cur.items.isEmpty then st.sections else st.sections ++ [st.cur],
    cur := { title := some title, level := some level, titleHref := titleHref, items := [] },
    seen := st.seen }

/-- findMainLink (content.js lines 404-450): the first candidate in
priority order that survives createLink. -/
def findMainLink (loc : JsLocation) : List (String × String) → Option Link
  | [] => none
  | (h, t) :: rest =>
    match createLink loc h t with
    | some l => some l
    | none => findMainLink loc rest

/-- findSubLinks (content.js lines 455-480): validate each sub-link
candidate with createLink and keep it when addIfNew accepts its href
into the seen set.  Returns the accepted links and the grown seen set. -/
def findSubLinks (loc : JsLocation) (seen : List String) :
    List (String × String) → List Link × List String
  | [] => ([], seen)
  | (h, t) :: rest =>
    match createLink loc h t with
    | none => findSubLinks loc seen rest
    | some l =>
      if l.href ∈ seen then findSubLinks loc seen rest
      else
        let p := findSubLinks loc (l.href :: seen) rest
        (l :: p.1, p.2)

/-- processContainer (content.js lines 513-528): find the main link,
require addIfNew to accept it, then collect the sub-links. -/
def processContainer (loc : JsLocation) (st : ExtState) (cd : ContainerData) : ExtState :=
  match findMainLink loc cd.mainCands with
  | none => st
  | some main =>
    if main.href ∈ st.seen then st
    else
      let p := findSubLinks loc (main.href :: st.seen) cd.subCands
      { sections := st.sections,
        cur := { st.cur with items := st.cur.items ++ [{ main := main, subs := p.1 }] },
        seen := p.2 }

/-- The walker body after the H1/H2 continue point (content.js lines
568-592): the SECTION-element section check, then the container check. -/
def stepNodeRest (loc : JsLocation) (st : ExtState) (e : NodeEvent) : ExtState :=
  let st1 :=
    match e.sectionHeading with
    | some (txt, href) =>
      match checkSectionHeader txt href with
      | some (t, h) => startNewSection st t 2 h
      | none => st
    | none => st
  match e.container with
  | some cd => processContainer loc st1 cd
  | none => st1

/-- One iteration of the walker loop (content.js lines 556-592): an
H1/H2 accepted as a section header starts a new section and skips the
rest of the body. -/
def stepNode (loc : JsLocation) (st : ExtState) (e : NodeEvent) : ExtState :=
  match e.h12 with
  | some (txt, href, level) =>
    match checkSectionHeader txt href with
    | some (t, h) => startNewSection st t level h
    | none => stepNodeRest loc st e
  | none => stepNodeRest loc st e

/-- The fallback scan over all links of the main content region
(content.js lines 603-613): validate with createLink, add to the seen
set with addIfNew, and keep as an item only when the cleaned text has at
least 15 characters (the href enters the seen set even when the item is
dropped, exactly as in the source). -/
def collectFallback (loc : JsLocation) (seen : List String) :
    List (String × String) → List ListItem × List String
  | [] => ([], seen)
  | (h, t) :: rest =>
    match createLink loc h t with
    | none => collectFallback loc seen rest
    | some l =>
      if l.href ∈ seen then collectFallback loc seen rest
      else
        let p := collectFallback loc (l.href :: seen) rest
        if 15 ≤ jsLength l.text then ({ main := l, subs := [] } :: p.1, p.2)
        else (p.1, p.2)

/-- Append the fallback items to the last existing section
(content.js line 620). -/
def appendToLast (items : List ListItem) : List ListingSection → List ListingSection
  | [] => []
  | [s] => [{ s with items := s.items ++ items }]
  | s :: rest => s :: appendToLast items rest

/-- The document as extractListing sees it: the location, the site
name and page title (read from meta tags and document.title, browser
DOM), the walker's event sequence over the main content region, and the
(href, text) pairs of all links of the main content region for the
fallback pass. -/
structure ListingDoc where
  loc : JsLocation
  siteName : String
  pageTitle : String
  sourceUrl : String
  events : List NodeEvent
  fallbackLinks : List (String × String)

/-- extractListing (content.js lines 322-631): fold the walker events,
close the last section, and run the fallback pass when fewer than five
items were extracted. -/
def extractListing (doc : ListingDoc) : ListingData :=
  let st0 : ExtState :=
    { sections := [],
      cur := { title := none, level := none, titleHref := none, items := [] },
      seen := [] }
  let st := doc.events.foldl (stepNode doc.loc) st0
  let secs := if st.cur.items.isEmpty then st.sections else st.sections ++ [st.cur]
  let totalItems : Nat := (secs.map (fun s => s.items.length)).sum
  let secs2 :=
    if totalItems < 5 then
      let p := collectFallback doc.loc st.seen doc.fallbackLinks
      if p.1.isEmpty then secs
      else if secs.isEmpty then
        [{ title := none, level := none, titleHref := none, items := p.1 }]
      else appendToLast p.1 secs
    else secs
  { siteName := doc.siteName, pageTitle := doc.pageTitle,
    sections := secs2, sourceUrl := doc.sourceUrl }

/-- All hrefs stored anywhere in a ListingData: each section's title
link and each item's main link and sub-links. -/
def allHrefs (ld : ListingData) : List String :=
  ld.sections.flatMap (fun s =>
    (match s.titleHref with | some h => [h] | none => []) ++
    s.items.flatMap (fun it => it.main.href :: it.subs.map Link.href))

/-- The hrefs of the items only (main links and sub-links), without the
section title links. -/
def itemHrefs (ld : ListingData) : List String :=
  ld.sections.flatMap (fun s => s.items.flatMap (fun it => it.main.href :: it.subs.map Link.href))

/-! ## Article classifier (content.js lines 91-155)

isArticlePage reads the URL path, the paragraph texts, and the count of
list-item/card/teaser-like elements (DOM queries), and probes the
Readability library (an external collaborator) on a cloned document.
The probe's outcome is modelled as an optional extracted text: none
stands for a null parse result or a thrown error.  The source also
computes hasSingleMainHeading and hasArticleStructure, but the decision
never uses them; they are omitted here. -/

/-- The document signals the classifier reads. -/
structure PageDoc where
  path : String
  paragraphs : List String
  listItemCount : Nat
  readability : Option String

/-- The number of whitespace-separated runs, counted left to right; the
flag remembers whether the previous character was part of a run. -/
def countRuns (inRun : Bool) : List Char → Nat
  | [] => 0
  | c :: rest =>
    if isJsWs c then countRuns false rest
    else (if inRun then 0 else 1) + countRuns true rest

/-- JavaScript trim-then-split-on-whitespace word count
(content.js line 145): splitting the empty string yields one (empty)
token, so the count is one. -/
def jsWordCount (s : String) : Nat :=
  let t := jsTrim s
  if t = "" then 1 else countRuns false t.data

/-- isArticlePage (content.js lines 91-155). -/
def isArticlePage (doc : PageDoc) : Bool :=
  if doc.path = "/" || doc.path = "" then false
  else
    let substantialParagraphs :=
      (doc.paragraphs.filter (fun p => 100 < jsLength (jsTrim p))).length
    let totalTextLength : Nat := (doc.paragraphs.map (fun p => jsLength (jsTrim p))).sum
    let hasListingStructure := decide (10 < doc.listItemCount)
    let hasSubstantialContent := decide (2000 < totalTextLength) && decide (3 < substantialParagraphs)
    let isNotListingPage := !hasListingStructure || decide (5 < substantialParagraphs)
    if hasSubstantialContent && isNotListingPage then
      match doc.readability with
      | some t => if t = "" then false else decide (200 < jsWordCount t)
      | none => false
    else false

/-! ## Pagination engine (content.js lines 1037-1138)

The engine reads the viewport width and the content's scrollable width
(layout measurements, modelled as rationals) and keeps the page state.
The natural-height measurement of lines 1057-1061 is taken but never
used for the page count and is omitted.  The column gap is the constant
50 of line 1046. -/

/-- The pagination state: current page index, total pages, and the page
stride (viewport width plus gap). -/
structure PaginationState where
  currentPage : Int
  totalPages : Int
  pageWidth : ℚ
deriving DecidableEq, Repr

/-- The fixed inter-column gap (content.js line 1046). -/
def columnGap : ℚ := 50

/-- setupPagination (content.js lines 1037-1095): compute the stride
and the page count from the measured scroll width, drop the trailing
page when its start offset is at or beyond the scroll width, and clamp
the current page into range. -/
def setupPagination (viewportWidth scrollWidth : ℚ) (s : PaginationState) : PaginationState :=
  let pageWidth := viewportWidth + columnGap
  let totalPages0 : Int := max 1 ⌈(scrollWidth + columnGap) / pageWidth⌉
  let lastPageStart : ℚ := ((totalPages0 - 1 : Int) : ℚ) * pageWidth
  let totalPages : Int := if scrollWidth ≤ lastPageStart then max 1 (totalPages0 - 1) else totalPages0
  { currentPage := min s.currentPage (max 0 (totalPages - 1)),
    totalPages := totalPages,
    pageWidth := pageWidth }

/-- nextPage (content.js lines 1116-1122). -/
def nextPage (s : PaginationState) : PaginationState :=
  if s.currentPage < s.totalPages - 1 then { s with currentPage := s.currentPage + 1 } else s

/-- prevPage (content.js lines 1124-1130). -/
def prevPage (s : PaginationState) : PaginationState :=
  if 0 < s.currentPage then { s with currentPage := s.currentPage - 1 } else s

/-- goToPage (content.js lines 1132-1138): out-of-range requests change
nothing. -/
def goToPage (p : Int) (s : PaginationState) : PaginationState :=
  if 0 ≤ p ∧ p < s.totalPages then { s with currentPage := p } else s

/-- The relayout run by applySettings on font-size and other typography
changes (content.js lines 989-995): the current page is set to zero
before setupPagination runs. -/
def applySettingsRelayout (viewportWidth scrollWidth : ℚ) (s : PaginationState) : PaginationState :=
  setupPagination viewportWidth scrollWidth { s with currentPage := 0 }

/-- The relayout run by the debounced window-resize handler
(content.js lines 1354-1358): setupPagination alone, with the current
page left as it is. -/
def resizeRelayout (viewportWidth scrollWidth : ℚ) (s : PaginationState) : PaginationState :=
  setupPagination viewportWidth scrollWidth s

/-- The pagination invariant of the specification. -/
def PagInvariant (s : PaginationState) : Prop :=
  1 ≤ s.totalPages ∧ 0 ≤ s.currentPage ∧ s.currentPage < s.totalPages

instance (s : PaginationState) : Decidable (PagInvariant s) := by
  unfold PagInvariant; infer_instance

/-- The total-page formula exactly as the specification sentence states
it: the ceiling, then a decrement by one exactly when the last page's
start offset is at or beyond the scroll width — with no clamping. -/
def claimedTotalPages (viewportWidth scrollWidth : ℚ) : Int :=
  let stride := viewportWidth + columnGap
  let tp : Int := ⌈(scrollWidth + columnGap) / stride⌉
  if scrollWidth ≤ ((tp - 1 : Int) : ℚ) * stride then tp - 1 else tp

/-! ## Listing renderer (content.js lines 1488-1570, 1587-1591)

renderListing assembles the markup by string concatenation; escapeHtml
serializes a text node, which escapes the ampersand and the angle
brackets (and nothing else — in particular not quotes). -/

/-- The serialization of one character of a text node. -/
def escapeChar (c : Char) : List Char :=
  if c = '&' then "&amp;".data
  else if c = '<' then "&lt;".data
  else if c = '>' then "&gt;".data
  else [c]

/-- Character-by-character text-node serialization. -/
def escapeChars : List Char → List Char
  | [] => []
  | c :: rest => escapeChar c ++ escapeChars rest

/-- escapeHtml (content.js lines 1587-1591): assign the string to a
div's textContent and read back innerHTML; for the ASCII inputs
considered this escapes exactly the ampersand and the angle brackets. -/
def escapeHtml (s : String) : String := ⟨escapeChars s.data⟩

/-- JavaScript truthiness of a nullable string. -/
def truthy (o : Option String) : Bool :=
  match o with
  | some s => !(s = "")
  | none => false

/-- The external-link marker appended after external link texts. -/
def externalSpan : String := " <span class=\"external-indicator\"></span>"

/-- The heading level rendered for a section: section.level with 2 for
a missing or zero (falsy) level. -/
def sectionLevel (s : ListingSection) : Nat :=
  match s.level with
  | some n => if n = 0 then 2 else n
  | none => 2

/-- The markup of one sub-link (content.js line 1538). -/
def renderSub (sub : Link) : String :=
  "<li><a href=\"" ++ escapeHtml sub.href ++ "\">" ++ escapeHtml sub.text ++
  (if sub.isExternal then externalSpan else "") ++ "</a></li>"

/-- The concatenated sub-link markup. -/
def renderSubs : List Link → String
  | [] => ""
  | sub :: rest => renderSub sub ++ renderSubs rest

/-- The markup of one item (content.js lines 1526-1544). -/
def renderItem (it : ListItem) : String :=
  "<li class=\"listing-item\">" ++
  "<a href=\"" ++ escapeHtml it.main.href ++ "\" class=\"listing-main-link\">" ++
  escapeHtml it.main.text ++ (if it.main.isExternal then externalSpan else "") ++ "</a>" ++
  (if it.subs.isEmpty then ""
   else "<ul class=\"listing-sub-links\">" ++ renderSubs it.subs ++ "</ul>") ++
  "</li>"

/-- The concatenated item markup. -/
def renderItems : List ListItem → String
  | [] => ""
  | it :: rest => renderItem it ++ renderItems rest

/-- The section title markup (content.js lines 1513-1520). -/
def renderSectionTitle (s : ListingSection) : String :=
  if truthy s.title then
    let lvl := toString (sectionLevel s)
    let titleText := match s.title with | some t => t | none => ""
    if truthy s.titleHref then
      let hrefText := match s.titleHref with | some h => h | none => ""
      "<h" ++ lvl ++ " class=\"listing-section-title\"><a href=\"" ++ escapeHtml hrefText ++
      "\">" ++ escapeHtml titleText ++ "</a></h" ++ lvl ++ ">"
    else
      "<h" ++ lvl ++ " class=\"listing-section-title\">" ++ escapeHtml titleText ++
      "</h" ++ lvl ++ ">"
  else ""

/-- The markup of one section (content.js lines 1511-1548). -/
def renderSectionHtml (s : ListingSection) : String :=
  renderSectionTitle s ++
  (if s.items.isEmpty then ""
   else "<ul class=\"listing-items\">" ++ renderItems s.items ++ "</ul>")

/-- The concatenated section markup. -/
def renderSections : List ListingSection → String
  | [] => ""
  | s :: rest => renderSectionHtml s ++ renderSections rest

/-- renderListing (content.js lines 1509-1550): the full generated
markup. -/
def renderListing (ld : ListingData) : String :=
  "<div class=\"listing-content\">" ++ renderSections ld.sections ++ "</div>"

/-- The number of lower-than signs in a string. -/
def countLt (s : String) : Nat := s.data.count '<'

/-- The lower-than signs contributed by the external marker of a link. -/
def extLt (b : Bool) : Nat := if b then 2 else 0

/-- Template lower-than count of one sub-link. -/
def ltOfSub (l : Link) : Nat := 4 + extLt l.isExternal

/-- Template lower-than count of one item. -/
def ltOfItem (it : ListItem) : Nat :=
  4 + extLt it.main.isExternal +
  (if it.subs.isEmpty then 0 else 2 + (it.subs.map ltOfSub).sum)

/-- Template lower-than count of one section. -/
def ltOfSection (s : ListingSection) : Nat :=
  (if truthy s.title then (if truthy s.titleHref then 4 else 2) else 0) +
  (if s.items.isEmpty then 0 else 2 + (s.items.map ltOfItem).sum)

/-- Template lower-than count of the whole listing: a function of the
shape of the ListingData only — it never reads a title, text or href
string. -/
def ltShape (ld : ListingData) : Nat := 2 + (ld.sections.map ltOfSection).sum

/-! ## Pagination theorems -/

/-- setupPagination always produces at least one page. -/
theorem setupPagination_totalPages_pos (vw sw : ℚ) (s : PaginationState) :
    1 ≤ (setupPagination vw sw s).totalPages := by
  unfold setupPagination
  dsimp only
  split
  · exact le_max_left 1 _
  · exact le_max_left 1 _

/-- The current page after setupPagination is the old one clamped into
the new range. -/
theorem setupPagination_currentPage (vw sw : ℚ) (s : PaginationState) :
    (setupPagination vw sw s).currentPage =
      min s.currentPage (max 0 ((setupPagination vw sw s).totalPages - 1)) := rfl

/-- Claim C4: layout and every navigation operation preserve the
pagination invariant (at least one page, current index in range), and
goToPage with an out-of-range index is a no-op that leaves the state
unchanged. -/
theorem C4_pagination_invariant (vw sw : ℚ) (p : Int) (s : PaginationState)
    (h : PagInvariant s) :
    PagInvariant { currentPage := 0, totalPages := 1, pageWidth := 0 } ∧
    PagInvariant (setupPagination vw sw s) ∧
    PagInvariant (nextPage s) ∧ PagInvariant (prevPage s) ∧ PagInvariant (goToPage p s) ∧
    ((p < 0 ∨ s.totalPages ≤ p) → goToPage p s = s) := by
  obtain ⟨h1, h2, h3⟩ := h
  refine ⟨⟨by norm_num, by norm_num, by norm_num⟩, ?_, ?_, ?_, ?_, ?_⟩
  · have hT := setupPagination_totalPages_pos vw sw s
    have hc := setupPagination_currentPage vw sw s
    set T := (setupPagination vw sw s).totalPages with hTdef
    have hmax : max 0 (T - 1) = T - 1 := max_eq_right (by omega)
    rw [hmax] at hc
    have hle : min s.currentPage (T - 1) ≤ T - 1 := min_le_right _ _
    have hge : 0 ≤ min s.currentPage (T - 1) := le_min h2 (by omega)
    exact ⟨hT, by omega, by omega⟩
  · unfold nextPage PagInvariant
    split <;> (try dsimp only) <;> omega
  · unfold prevPage PagInvariant
    split <;> (try dsimp only) <;> omega
  · unfold goToPage PagInvariant
    split <;> (try dsimp only) <;> omega
  · intro hp
    unfold goToPage
    rw [if_neg]
    rintro ⟨hp1, hp2⟩
    omega

/-- Witness for C4 at a concrete state and an out-of-range index. -/
theorem C4_pagination_invariant_witness :
    PagInvariant { currentPage := 2, totalPages := 5, pageWidth := (150 : ℚ) } ∧
    (PagInvariant { currentPage := 0, totalPages := 1, pageWidth := 0 } ∧
     PagInvariant (setupPagination 100 700 { currentPage := 2, totalPages := 5, pageWidth := (150 : ℚ) }) ∧
     PagInvariant (nextPage { currentPage := 2, totalPages := 5, pageWidth := (150 : ℚ) }) ∧
     PagInvariant (prevPage { currentPage := 2, totalPages := 5, pageWidth := (150 : ℚ) }) ∧
     PagInvariant (goToPage (-1) { currentPage := 2, totalPages := 5, pageWidth := (150 : ℚ) }) ∧
     ((-1 : Int) < 0 ∨ (5 : Int) ≤ -1 →
       goToPage (-1) { currentPage := 2, totalPages := 5, pageWidth := (150 : ℚ) } =
       { currentPage := 2, totalPages := 5, pageWidth := (150 : ℚ) })) :=
  ⟨⟨by norm_num, by norm_num, by norm_num⟩,
   C4_pagination_invariant 100 700 (-1) _ ⟨by norm_num, by norm_num, by norm_num⟩⟩

/-- Claim C5 counterexample: at scrollWidth 0 the spec formula
(ceiling, then unconditional decrement when the last page offset reaches
the scroll width) yields 0 total pages, while setupPagination clamps the
decrement at one page. -/
theorem C5_claim_formula_counterexample :
    claimedTotalPages 100 0 = 0 ∧
    (setupPagination 100 0 { currentPage := 0, totalPages := 1, pageWidth := 0 }).totalPages = 1 := by
  have hceil : (⌈((0:ℚ) + columnGap) / (100 + columnGap)⌉ : Int) = 1 := by
    unfold columnGap
    rw [Int.ceil_eq_iff]
    norm_num
  constructor
  · simp only [claimedTotalPages, hceil]
    norm_num
  · simp only [setupPagination, hceil]
    norm_num

/-- Claim C5 (amended): setupPagination computes the ceiling count,
decrements it exactly when the last page's start offset is at or beyond
the scroll width, and clamps the result below at one page; for a scroll
width of exactly three strides the result is three pages. -/
theorem C5_total_pages (vw sw : ℚ) (s : PaginationState) (hvw : 0 < vw) (hsw : 0 ≤ sw) :
    (setupPagination vw sw s).totalPages = max 1 (claimedTotalPages vw sw) ∧
    (sw = 3 * (vw + columnGap) → (setupPagination vw sw s).totalPages = 3) := by
  have hgap : (0:ℚ) < columnGap := by unfold columnGap; norm_num
  have hstride : (0:ℚ) < vw + columnGap := by linarith
  have htp0pos : (0:Int) < ⌈(sw + columnGap) / (vw + columnGap)⌉ :=
    Int.ceil_pos.mpr (div_pos (by linarith) hstride)
  have hmax : max 1 ⌈(sw + columnGap) / (vw + columnGap)⌉ =
      ⌈(sw + columnGap) / (vw + columnGap)⌉ := max_eq_right (by omega)
  constructor
  · simp only [setupPagination, claimedTotalPages, hmax]
    split
    · rfl
    · exact (max_eq_right (by omega)).symm
  · intro hs3
    have hceil4 : (⌈(sw + columnGap) / (vw + columnGap)⌉ : Int) = 4 := by
      rw [hs3, Int.ceil_eq_iff]
      constructor
      · rw [lt_div_iff₀ hstride]; push_cast; nlinarith
      · rw [div_le_iff₀ hstride]; push_cast; nlinarith
    simp only [setupPagination, hceil4]
    norm_num
    rw [hs3]

/-- Witness for C5 at viewport width 100 and scroll width 450 (three
strides of 150): three pages. -/
theorem C5_total_pages_witness :
    (setupPagination 100 450 { currentPage := 0, totalPages := 1, pageWidth := 0 }).totalPages = 3 :=
  (C5_total_pages 100 450 { currentPage := 0, totalPages := 1, pageWidth := 0 }
    (by norm_num) (by norm_num)).2 (by unfold columnGap; norm_num)

/-- Claim C6 counterexample: a resize-triggered relayout (the debounced
resize handler calls setupPagination directly) keeps the current page
at 2 instead of resetting it to 0. -/
theorem C6_resize_keeps_page_counterexample :
    (resizeRelayout 100 700 { currentPage := 2, totalPages := 5, pageWidth := 150 }).currentPage = 2 ∧
    (2 : Int) ≠ 0 := by
  have hceil : (⌈((700:ℚ) + columnGap) / (100 + columnGap)⌉ : Int) = 5 := by
    unfold columnGap
    rw [Int.ceil_eq_iff]
    norm_num
  constructor
  · simp only [resizeRelayout, setupPagination, hceil]
    norm_num [columnGap]
  · norm_num

/-- Claim C6 (amended): a relayout through applySettings (font size and
other typography changes) always resets the current page to 0, while a
relayout through the resize handler preserves the current page whenever
it is still in range, clamping it otherwise. -/
theorem C6_relayout_page_reset (vw sw : ℚ) (s : PaginationState)
    (hcur : 0 ≤ s.currentPage)
    (hlt : s.currentPage < (setupPagination vw sw s).totalPages) :
    (applySettingsRelayout vw sw s).currentPage = 0 ∧
    (resizeRelayout vw sw s).currentPage = s.currentPage := by
  constructor
  · have h := setupPagination_currentPage vw sw { s with currentPage := 0 }
    unfold applySettingsRelayout
    rw [h]
    exact min_eq_left (le_max_left 0 _)
  · have hT := setupPagination_totalPages_pos vw sw s
    have h := setupPagination_currentPage vw sw s
    unfold resizeRelayout
    rw [h]
    rw [max_eq_right (by omega : (0:Int) ≤ (setupPagination vw sw s).totalPages - 1)]
    exact min_eq_left (by omega)

/-- Witness for C6 at a concrete in-range state. -/
theorem C6_relayout_page_reset_witness :
    (applySettingsRelayout 100 700 { currentPage := 2, totalPages := 5, pageWidth := 150 }).currentPage = 0 ∧
    (resizeRelayout 100 700 { currentPage := 2, totalPages := 5, pageWidth := 150 }).currentPage = 2 :=
  C6_relayout_page_reset 100 700 { currentPage := 2, totalPages := 5, pageWidth := 150 }
    (by norm_num)
    (by
      have hceil : (⌈((700:ℚ) + columnGap) / (100 + columnGap)⌉ : Int) = 5 := by
        unfold columnGap
        rw [Int.ceil_eq_iff]
        norm_num
      simp only [setupPagination, hceil]
      norm_num [columnGap])

/-! ## Classifier theorems -/

/-- Claim C7: a document whose URL path is empty or the root is never
classified as an article, whatever its content. -/
theorem C7_classify_root_path (doc : PageDoc) (h : doc.path = "/" ∨ doc.path = "") :
    isArticlePage doc = false := by
  unfold isArticlePage
  rcases h with h | h <;> simp [h]

/-- Witness for C7: a root-path document with rich article content is
still rejected. -/
theorem C7_classify_root_path_witness :
    isArticlePage
      { path := "/",
        paragraphs := List.replicate 6 (String.mk (List.replicate 600 'a')),
        listItemCount := 0,
        readability := some (String.mk ((List.range 300).flatMap (fun _ => ['w', ' ']))) }
      = false :=
  C7_classify_root_path _ (Or.inl rfl)

/-- Claim C8: when the path check, the substantial-content check and
the not-a-listing check pass, the classifier's verdict is exactly the
outcome of the speculative extraction probe: article when the probe
yields text of more than 200 words, not an article when the probe fails
(a null result, an empty text, or a thrown error, all modelled as the
absence of an extracted text) — never an error. -/
theorem C8_extraction_probe (doc : PageDoc)
    (h1 : doc.path ≠ "/") (h2 : doc.path ≠ "")
    (hlen : 2000 < (doc.paragraphs.map (fun p => jsLength (jsTrim p))).sum)
    (hsub : 3 < (doc.paragraphs.filter (fun p => 100 < jsLength (jsTrim p))).length)
    (hnl : doc.listItemCount ≤ 10 ∨
           5 < (doc.paragraphs.filter (fun p => 100 < jsLength (jsTrim p))).length) :
    (isArticlePage doc = true ↔ ∃ t, doc.readability = some t ∧ 200 < jsWordCount t) := by
  have hwc0 : jsWordCount "" = 1 := by decide
  rcases hr : doc.readability with _ | t
  · unfold isArticlePage
    rcases hnl with hnl | hnl <;>
      simp [h1, h2, hr, hlen, hsub, hnl]
  · by_cases ht : t = ""
    · subst ht
      unfold isArticlePage
      rcases hnl with hnl | hnl <;>
        simp [h1, h2, hr, hlen, hsub, hnl, hwc0]
    · unfold isArticlePage
      rcases hnl with hnl | hnl <;>
        simp [h1, h2, hr, hlen, hsub, hnl, ht]

set_option maxRecDepth 40000 in
/-- Witness for C8: the specification's scenario of four paragraphs of
600 characters (2400 total) and no listing structure, with a probe
extracting more than 200 words, is classified as an article. -/
theorem C8_extraction_probe_witness :
    isArticlePage
      { path := "/news/today",
        paragraphs := List.replicate 4 (String.mk (List.replicate 600 'a')),
        listItemCount := 0,
        readability := some (String.mk ((List.range 300).flatMap (fun _ => ['w', ' ']))) }
      = true :=
  (C8_extraction_probe _ (by decide) (by decide) (by decide) (by decide)
    (Or.inl (by decide))).mpr
    ⟨String.mk ((List.range 300).flatMap (fun _ => ['w', ' '])), rfl, by decide⟩

/-! ## Sanitizer theorems -/

/-- Claim C2 (code-bug evidence): an anchor whose href injects a tab
inside the scheme passes sanitizeHTML unchanged — the source only
compares the trimmed, lowercased value against the literal
"javascript:", and an interior tab defeats that comparison — yet the
value is a script-execution URI, since a browser's URL parser removes
interior tabs and newlines before interpreting the scheme. -/
theorem C2_sanitizeHTML_keeps_tab_scheme :
    sanitizeHTML [.elem "A" [("href", "JAVA\tSCRIPT:alert(1)")] [.text "x"]]
      = [.elem "A" [("href", "JAVA\tSCRIPT:alert(1)")] [.text "x"]] ∧
    isScriptSchemeValue "JAVA\tSCRIPT:alert(1)" = true ∧
    jsStartsWith (jsToLower (jsTrim "JAVA\tSCRIPT:alert(1)")) "javascript:" = false := by
  refine ⟨?_, by decide, by decide⟩
  simp [sanitizeHTML, removedTags, keepAttribute, eventAttributes, urlAttributes]
  decide

/-- Claim C3: the sanitizing tree rewrite is idempotent — one pass
leaves no removed tag and no rejected attribute, so a second pass
changes nothing.  (The parse and serialization steps around the rewrite
are the browser's DOMParser and innerHTML.) -/
theorem C3_sanitizeHTML_idempotent (ns : List HtmlNode) :
    sanitizeHTML (sanitizeHTML ns) = sanitizeHTML ns := by
  induction ns using sanitizeHTML.induct with
  | case1 => simp [sanitizeHTML]
  | case2 s rest ih => simp [sanitizeHTML, ih]
  | case3 tag attrs children rest htag ih => simp [sanitizeHTML, htag, ih]
  | case4 tag attrs children rest htag ih1 ih2 =>
    simp [sanitizeHTML, htag, ih1, ih2, List.filter_filter]

/-! ## createLink theorems -/

/-- createLink rejects an empty href or text. -/
theorem createLink_none_of_empty (loc : JsLocation) (href text : String)
    (h : href = "" ∨ text = "") : createLink loc href text = none := by
  unfold createLink
  rcases h with h | h <;> simp [h]

/-- createLink rejects cleaned text shorter than 5 or longer than 400
characters. -/
theorem createLink_none_of_len (loc : JsLocation) (href text : String)
    (h : jsLength (jsTrim (stripHtmlTags text)) < 5 ∨
         400 < jsLength (jsTrim (stripHtmlTags text))) :
    createLink loc href text = none := by
  unfold createLink
  split
  · rfl
  · rcases h with h | h <;> simp [h]

/-- createLink rejects an href that literally starts with the lowercase
prefix "javascript:". -/
theorem createLink_none_of_js (loc : JsLocation) (href text : String)
    (h : jsStartsWith href "javascript:" = true) :
    createLink loc href text = none := by
  unfold createLink
  split
  · rfl
  · simp [h]

/-- createLink rejects a same-page fragment-only link. -/
theorem createLink_none_of_frag (loc : JsLocation) (href text : String) (u : JsUrl)
    (hu : parseURL href loc = some u) (hh : urlHash u ≠ "")
    (hp : u.pathname = loc.pathname) (ho : urlOrigin u = locOrigin loc) :
    createLink loc href text = none := by
  unfold createLink
  split
  · rfl
  · simp [hu, hh, hp, ho]

/-- createLink rejects text matching the navigational-boilerplate
denylist. -/
theorem createLink_none_of_deny (loc : JsLocation) (href text : String)
    (h : denylistMatch (jsTrim (stripHtmlTags text)) = true) :
    createLink loc href text = none := by
  unfold createLink
  split
  · rfl
  · rcases hp : parseURL href loc with _ | u <;> simp [hp, h]

/-- Claim C9 (amended): createLink rejects a candidate whenever the
href or text is empty, the cleaned text is shorter than 5 or longer
than 400 characters, the href literally starts with the lowercase
prefix "javascript:" (the check is a case-sensitive prefix comparison
on the raw href, not a scheme test), the link is a same-page
fragment-only link, or the cleaned text matches the boilerplate
denylist. -/
theorem C9_createLink_rejections (loc : JsLocation) (href text : String)
    (h : href = "" ∨ text = "" ∨
         jsLength (jsTrim (stripHtmlTags text)) < 5 ∨
         400 < jsLength (jsTrim (stripHtmlTags text)) ∨
         jsStartsWith href "javascript:" = true ∨
         (∃ u, parseURL href loc = some u ∧ urlHash u ≠ "" ∧
               u.pathname = loc.pathname ∧ urlOrigin u = locOrigin loc) ∨
         denylistMatch (jsTrim (stripHtmlTags text)) = true) :
    createLink loc href text = none := by
  rcases h with h | h | h | h | h | ⟨u, hu, hh, hp, ho⟩ | h
  · exact createLink_none_of_empty loc href text (Or.inl h)
  · exact createLink_none_of_empty loc href text (Or.inr h)
  · exact createLink_none_of_len loc href text (Or.inl h)
  · exact createLink_none_of_len loc href text (Or.inr h)
  · exact createLink_none_of_js loc href text h
  · exact createLink_none_of_frag loc href text u hu hh hp ho
  · exact createLink_none_of_deny loc href text h

/-- Witness for C9, which is also the specification's scenario: a link
whose text is "Search" yields no link, by the denylist. -/
theorem C9_createLink_rejections_witness :
    createLink { scheme := "https", host := "example.com", pathname := "/section/page" }
      "https://example.com/search" "Search" = none :=
  C9_createLink_rejections _ _ _
    (Or.inr (Or.inr (Or.inr (Or.inr (Or.inr (Or.inr (by decide)))))))

/-- Claim C9 counterexample: a mixed-case javascript URL is a
script-execution-scheme href (its parsed scheme is javascript), yet
createLink accepts it — the source's rejection is a case-sensitive
comparison against the literal "javascript:" prefix — and even
normalizes it to a lowercase javascript: href in the returned link. -/
theorem C9_mixed_case_scheme_counterexample :
    (parseURL "JavaScript:alert(1)"
      { scheme := "https", host := "example.com", pathname := "/section/page" }).map JsUrl.scheme
      = some "javascript" ∧
    createLink { scheme := "https", host := "example.com", pathname := "/section/page" }
      "JavaScript:alert(1)" "Breaking report from the desk"
      = some { href := "javascript:alert(1)", text := "Breaking report from the desk",
               isExternal := true } := by
  constructor
  · decide
  · decide

/-! ## Renderer theorems -/

/-- Lower-than counting distributes over concatenation. -/
theorem countLt_append (a b : String) : countLt (a ++ b) = countLt a + countLt b := by
  unfold countLt
  rw [String.data_append, List.count_append]

/-- One escaped character contributes no lower-than sign. -/
theorem count_escapeChar (c : Char) : (escapeChar c).count '<' = 0 := by
  unfold escapeChar
  split_ifs with h1 h2 h3
  · decide
  · decide
  · decide
  · simp [List.count_cons, List.count_nil, Ne.symm h2]

/-- Escaped text contributes no lower-than sign. -/
theorem countLt_escapeHtml (s : String) : countLt (escapeHtml s) = 0 := by
  unfold countLt escapeHtml
  show (escapeChars s.data).count '<' = 0
  induction s.data with
  | nil => rfl
  | cons c t ih => simp [escapeChars, List.count_append, count_escapeChar, ih]

/-- Every character of a decimal representation is a digit character or
comes from the accumulator. -/
theorem toDigitsCore_mem (b : Nat) :
    ∀ (fuel n : Nat) (ds : List Char), ∀ c ∈ Nat.toDigitsCore b fuel n ds,
      c ∈ ds ∨ ∃ m, c = Nat.digitChar m := by
  intro fuel
  induction fuel with
  | zero => intro n ds c hc; exact Or.inl hc
  | succ fuel ih =>
    intro n ds c hc
    unfold Nat.toDigitsCore at hc
    by_cases h : n / b = 0
    · simp only [h, if_pos rfl] at hc
      rcases List.mem_cons.mp hc with h1 | h1
      · exact Or.inr ⟨n % b, h1⟩
      · exact Or.inl h1
    · simp only [if_neg h] at hc
      rcases ih (n / b) (Nat.digitChar (n % b) :: ds) c hc with h1 | h1
      · rcases List.mem_cons.mp h1 with h2 | h2
        · exact Or.inr ⟨n % b, h2⟩
        · exact Or.inl h2
      · exact Or.inr h1

/-- A digit character is never a lower-than sign. -/
theorem digitChar_ne_lt (m : Nat) : Nat.digitChar m ≠ '<' := by
  by_cases h : m < 16
  · interval_cases m <;> decide
  · unfold Nat.digitChar
    have hne : ∀ k : Nat, k < 16 → ¬ m = k := by omega
    rw [if_neg (hne 0 (by norm_num)), if_neg (hne 1 (by norm_num)),
      if_neg (hne 2 (by norm_num)), if_neg (hne 3 (by norm_num)),
      if_neg (hne 4 (by norm_num)), if_neg (hne 5 (by norm_num)),
      if_neg (hne 6 (by norm_num)), if_neg (hne 7 (by norm_num)),
      if_neg (hne 8 (by norm_num)), if_neg (hne 9 (by norm_num)),
      if_neg (hne 10 (by norm_num)), if_neg (hne 11 (by norm_num)),
      if_neg (hne 12 (by norm_num)), if_neg (hne 13 (by norm_num)),
      if_neg (hne 14 (by norm_num)), if_neg (hne 15 (by norm_num))]
    decide

/-- The rendered heading level contributes no lower-than sign. -/
theorem countLt_toString_nat (n : Nat) : countLt (toString n) = 0 := by
  unfold countLt
  refine List.count_eq_zero.mpr ?_
  intro h
  have hmem : '<' ∈ Nat.toDigits 10 n := h
  rcases toDigitsCore_mem 10 (n + 1) n [] '<' hmem with h1 | ⟨m, h1⟩
  · exact absurd h1 (List.not_mem_nil _)
  · exact digitChar_ne_lt m h1.symm

/-- Template count of one sub-link. -/
theorem countLt_renderSub (l : Link) : countLt (renderSub l) = ltOfSub l := by
  unfold renderSub ltOfSub extLt
  by_cases h : l.isExternal <;>
    simp [h, countLt_append, countLt_escapeHtml] <;> decide

/-- Template count of a sub-link list. -/
theorem countLt_renderSubs (subs : List Link) :
    countLt (renderSubs subs) = (subs.map ltOfSub).sum := by
  induction subs with
  | nil => decide
  | cons l rest ih => simp [renderSubs, countLt_append, countLt_renderSub, ih]

/-- Template count of one item. -/
theorem countLt_renderItem (it : ListItem) : countLt (renderItem it) = ltOfItem it := by
  unfold renderItem ltOfItem extLt
  by_cases h1 : it.main.isExternal <;> by_cases h2 : it.subs.isEmpty <;>
    simp only [h1, h2, if_true, if_false, Bool.false_eq_true, ite_true, ite_false,
      countLt_append, countLt_escapeHtml, countLt_renderSubs] <;>
    simp [show countLt "<li class=\"listing-item\">" = 1 from by decide,
      show countLt "<a href=\"" = 1 from by decide,
      show countLt "\" class=\"listing-main-link\">" = 0 from by decide,
      show countLt "</a>" = 1 from by decide,
      show countLt "</li>" = 1 from by decide,
      show countLt "" = 0 from by decide,
      show countLt "<ul class=\"listing-sub-links\">" = 1 from by decide,
      show countLt "</ul>" = 1 from by decide,
      show countLt externalSpan = 2 from by decide] <;>
    omega

/-- Template count of an item list. -/
theorem countLt_renderItems (items : List ListItem) :
    countLt (renderItems items) = (items.map ltOfItem).sum := by
  induction items with
  | nil => decide
  | cons it rest ih => simp [renderItems, countLt_append, countLt_renderItem, ih]

/-- Template count of a section title. -/
theorem countLt_renderSectionTitle (s : ListingSection) :
    countLt (renderSectionTitle s) =
      (if truthy s.title then (if truthy s.titleHref then 4 else 2) else 0) := by
  unfold renderSectionTitle
  by_cases h1 : truthy s.title <;> by_cases h2 : truthy s.titleHref <;>
    simp only [h1, h2, if_true, if_false, Bool.false_eq_true, ite_true, ite_false,
      countLt_append, countLt_escapeHtml, countLt_toString_nat] <;>
    simp [show countLt "<h" = 1 from by decide,
      show countLt " class=\"listing-section-title\"><a href=\"" = 1 from by decide,
      show countLt " class=\"listing-section-title\">" = 0 from by decide,
      show countLt "\">" = 0 from by decide,
      show countLt "</a></h" = 2 from by decide,
      show countLt "</h" = 1 from by decide,
      show countLt "" = 0 from by decide,
      show countLt ">" = 0 from by decide] <;>
    try omega

/-- Template count of one section. -/
theorem countLt_renderSectionHtml (s : ListingSection) :
    countLt (renderSectionHtml s) = ltOfSection s := by
  unfold renderSectionHtml ltOfSection
  by_cases h : s.items.isEmpty <;>
    simp only [h, if_true, if_false, Bool.false_eq_true, ite_true, ite_false,
      countLt_append, countLt_renderSectionTitle, countLt_renderItems] <;>
    simp [show countLt "<ul class=\"listing-items\">" = 1 from by decide,
      show countLt "" = 0 from by decide,
      show countLt "</ul>" = 1 from by decide] <;>
    try omega

/-- Template count of a section list. -/
theorem countLt_renderSections (secs : List ListingSection) :
    countLt (renderSections secs) = (secs.map ltOfSection).sum := by
  induction secs with
  | nil => decide
  | cons s rest ih => simp [renderSections, countLt_append, countLt_renderSectionHtml, ih]

/-- Claim C10 (amended): every interpolated value of renderListing goes
through escapeHtml, which removes every raw angle bracket, so the
number of lower-than signs — and hence the set of markup tags — of the
rendered listing is a function of the shape of the ListingData alone
and cannot be influenced by any title, text or href string.  (escapeHtml
does not escape quotes, so attribute injection is still possible; see
the counterexample.) -/
theorem C10_render_tag_count (ld : ListingData) :
    countLt (renderListing ld) = ltShape ld := by
  unfold renderListing ltShape
  simp [countLt_append, countLt_renderSections]
  simp [show countLt "<div class=\"listing-content\">" = 1 from by decide,
    show countLt "</div>" = 1 from by decide]
  omega

/-- Claim C10 counterexample: escapeHtml leaves double quotes intact,
so an href containing a quote closes the href attribute early and
introduces a fresh onclick attribute into the rendered listing, even
though every interpolated value went through escapeHtml. -/
theorem C10_attribute_injection_counterexample :
    escapeHtml "\"" = "\"" ∧
    renderListing
      { siteName := "site", pageTitle := "title", sourceUrl := "https://example.com/",
        sections := [{ title := none, level := none, titleHref := none,
                       items := [{ main := { href := "x\" onclick=\"alert(1)",
                                             text := "hello", isExternal := false },
                                   subs := [] }] }] }
      = "<div class=\"listing-content\"><ul class=\"listing-items\"><li class=\"listing-item\"><a href=\"x\" onclick=\"alert(1)\" class=\"listing-main-link\">hello</a></li></ul></div>" := by
  constructor
  · decide
  · decide

/-! ## Listing extraction theorems -/

/-- Claim C1 counterexample: a section header's own link href is stored
as the section's title link without ever entering the seen-href set
(checkSectionHeader passes it through untouched and startNewSection
records it directly), so the very same href can be used again as an
item's main link: the extracted structure then holds that href twice. -/
theorem C1_titleHref_duplicate_counterexample :
    ¬ (allHrefs (extractListing
      { loc := { scheme := "https", host := "example.com", pathname := "/" },
        siteName := "Example", pageTitle := "Example home",
        sourceUrl := "https://example.com/",
        events :=
          [{ h12 := some ("News", some "https://example.com/news", 2),
             sectionHeading := none, container := none },
           { h12 := none, sectionHeading := none,
             container :=
               some { mainCands := [("https://example.com/news", "All the latest news stories")],
                      subCands := [] } }],
        fallbackLinks := [] })).Nodup := by decide

/-- The hrefs contributed by one item: its main link and its sub-links. -/
def itemLinkHrefs (it : ListItem) : List String := it.main.href :: it.subs.map Link.href

/-- The item hrefs of one section. -/
def secHrefs (s : ListingSection) : List String := s.items.flatMap itemLinkHrefs

/-- The item hrefs accumulated in an extraction state, finished
sections first, current section last. -/
def stateHrefs (st : ExtState) : List String := (st.sections ++ [st.cur]).flatMap secHrefs

/-- The walk invariant: the accumulated item hrefs are pairwise
distinct, and every one of them is in the seen set. -/
def ExtInv (st : ExtState) : Prop :=
  (stateHrefs st).Nodup ∧ ∀ h ∈ stateHrefs st, h ∈ st.seen

/-- itemHrefs of a ListingData is secHrefs summed over its sections. -/
theorem itemHrefs_eq (ld : ListingData) : itemHrefs ld = ld.sections.flatMap secHrefs := rfl

/-- The seen set returned by findSubLinks is the accepted hrefs
(reversed) on top of the incoming seen set. -/
theorem findSubLinks_seen_eq (loc : JsLocation) (cands : List (String × String)) :
    ∀ seen, (findSubLinks loc seen cands).2 =
      ((findSubLinks loc seen cands).1.map Link.href).reverse ++ seen := by
  induction cands with
  | nil => intro seen; rfl
  | cons hd tl ih =>
    intro seen
    obtain ⟨h, t⟩ := hd
    rcases hcl : createLink loc h t with _ | l
    · simpa [findSubLinks, hcl] using ih seen
    · by_cases hmem : l.href ∈ seen
      · simpa [findSubLinks, hcl, hmem] using ih seen
      · simpa [findSubLinks, hcl, hmem] using ih (l.href :: seen)

/-- Links accepted by findSubLinks are fresh for the incoming seen set. -/
theorem findSubLinks_fresh (loc : JsLocation) (cands : List (String × String)) :
    ∀ seen l, l ∈ (findSubLinks loc seen cands).1 → l.href ∉ seen := by
  induction cands with
  | nil => intro seen l hl; simp [findSubLinks] at hl
  | cons hd tl ih =>
    intro seen l hl
    obtain ⟨h, t⟩ := hd
    rcases hcl : createLink loc h t with _ | l'
    · simp only [findSubLinks, hcl] at hl
      exact ih seen l hl
    · by_cases hmem : l'.href ∈ seen
      · simp only [findSubLinks, hcl, if_pos hmem] at hl
        exact ih seen l hl
      · simp only [findSubLinks, hcl, if_neg hmem] at hl
        rcases List.mem_cons.mp hl with rfl | hl
        · exact hmem
        · intro hcontra
          exact ih (l'.href :: seen) l hl (List.mem_cons_of_mem _ hcontra)

/-- The hrefs accepted by findSubLinks are pairwise distinct. -/
theorem findSubLinks_nodup (loc : JsLocation) (cands : List (String × String)) :
    ∀ seen, ((findSubLinks loc seen cands).1.map Link.href).Nodup := by
  induction cands with
  | nil => intro seen; simp [findSubLinks]
  | cons hd tl ih =>
    intro seen
    obtain ⟨h, t⟩ := hd
    rcases hcl : createLink loc h t with _ | l
    · simpa [findSubLinks, hcl] using ih seen
    · by_cases hmem : l.href ∈ seen
      · simpa [findSubLinks, hcl, hmem] using ih seen
      · simp only [findSubLinks, hcl, if_neg hmem, List.map_cons, List.nodup_cons]
        refine ⟨?_, ih (l.href :: seen)⟩
        intro hcontra
        rcases List.mem_map.mp hcontra with ⟨l', hl', hhl'⟩
        exact findSubLinks_fresh loc tl (l.href :: seen) l' hl' (hhl' ▸ List.mem_cons_self _ _)

/-- Fallback items never carry sub-links. -/
theorem collectFallback_subs_nil (loc : JsLocation) (links : List (String × String)) :
    ∀ seen it, it ∈ (collectFallback loc seen links).1 → it.subs = [] := by
  induction links with
  | nil => intro seen it hit; simp [collectFallback] at hit
  | cons hd tl ih =>
    intro seen it hit
    obtain ⟨h, t⟩ := hd
    rcases hcl : createLink loc h t with _ | l
    · simp only [collectFallback, hcl] at hit
      exact ih seen it hit
    · by_cases hmem : l.href ∈ seen
      · simp only [collectFallback, hcl, if_pos hmem] at hit
        exact ih seen it hit
      · by_cases hlen : 15 ≤ jsLength l.text
        · simp only [collectFallback, hcl, if_neg hmem, if_pos hlen] at hit
          rcases List.mem_cons.mp hit with rfl | hit
          · rfl
          · exact ih (l.href :: seen) it hit
        · simp only [collectFallback, hcl, if_neg hmem, if_neg hlen] at hit
          exact ih (l.href :: seen) it hit

/-- Fallback items are fresh for the incoming seen set. -/
theorem collectFallback_fresh (loc : JsLocation) (links : List (String × String)) :
    ∀ seen it, it ∈ (collectFallback loc seen links).1 → it.main.href ∉ seen := by
  induction links with
  | nil => intro seen it hit; simp [collectFallback] at hit
  | cons hd tl ih =>
    intro seen it hit
    obtain ⟨h, t⟩ := hd
    rcases hcl : createLink loc h t with _ | l
    · simp only [collectFallback, hcl] at hit
      exact ih seen it hit
    · by_cases hmem : l.href ∈ seen
      · simp only [collectFallback, hcl, if_pos hmem] at hit
        exact ih seen it hit
      · by_cases hlen : 15 ≤ jsLength l.text
        · simp only [collectFallback, hcl, if_neg hmem, if_pos hlen] at hit
          rcases List.mem_cons.mp hit with rfl | hit
          · exact hmem
          · intro hcontra
            exact ih (l.href :: seen) it hit (List.mem_cons_of_mem _ hcontra)
        · simp only [collectFallback, hcl, if_neg hmem, if_neg hlen] at hit
          intro hcontra
          exact ih (l.href :: seen) it hit (List.mem_cons_of_mem _ hcontra)

/-- The main hrefs of the fallback items are pairwise distinct. -/
theorem collectFallback_nodup (loc : JsLocation) (links : List (String × String)) :
    ∀ seen, ((collectFallback loc seen links).1.map (fun it => it.main.href)).Nodup := by
  induction links with
  | nil => intro seen; simp [collectFallback]
  | cons hd tl ih =>
    intro seen
    obtain ⟨h, t⟩ := hd
    rcases hcl : createLink loc h t with _ | l
    · simpa [collectFallback, hcl] using ih seen
    · by_cases hmem : l.href ∈ seen
      · simpa [collectFallback, hcl, hmem] using ih seen
      · by_cases hlen : 15 ≤ jsLength l.text
        · simp only [collectFallback, hcl, if_neg hmem, if_pos hlen, List.map_cons,
            List.nodup_cons]
          refine ⟨?_, ih (l.href :: seen)⟩
          intro hcontra
          rcases List.mem_map.mp hcontra with ⟨it, hit, hhit⟩
          exact collectFallback_fresh loc tl (l.href :: seen) it hit
            (hhit ▸ List.mem_cons_self _ _)
        · simpa [collectFallback, hcl, hmem, hlen] using ih (l.href :: seen)

/-- Opening a new section rearranges the accumulated sections but keeps
the accumulated item hrefs exactly. -/
theorem startNewSection_stateHrefs (st : ExtState) (title : String) (level : Nat)
    (titleHref : Option String) :
    stateHrefs (startNewSection st title level titleHref) = stateHrefs st := by
  unfold startNewSection stateHrefs
  have hnew : secHrefs { title := some title, level := some level,
                         titleHref := titleHref, items := [] } = [] := rfl
  by_cases h : st.cur.items.isEmpty
  · have hnil : secHrefs st.cur = [] := by
      unfold secHrefs
      rw [List.isEmpty_iff.mp h]
      rfl
    simp [h, hnil, hnew, List.flatMap_append]
  · simp [h, hnew, List.flatMap_append]

/-- Opening a new section preserves the invariant. -/
theorem startNewSection_inv (st : ExtState) (title : String) (level : Nat)
    (titleHref : Option String) (h : ExtInv st) :
    ExtInv (startNewSection st title level titleHref) := by
  obtain ⟨h1, h2⟩ := h
  refine ⟨?_, ?_⟩
  · rw [startNewSection_stateHrefs]; exact h1
  · intro x hx
    rw [startNewSection_stateHrefs] at hx
    exact h2 x hx

/-- Processing a container preserves the invariant: the main link is
admitted only through addIfNew, and every sub-link goes through addIfNew
on the grown seen set. -/
theorem processContainer_inv (loc : JsLocation) (cd : ContainerData) (st : ExtState)
    (h : ExtInv st) : ExtInv (processContainer loc st cd) := by
  obtain ⟨h1, h2⟩ := h
  unfold processContainer
  rcases hml : findMainLink loc cd.mainCands with _ | main
  · exact ⟨h1, h2⟩
  · by_cases hmem : main.href ∈ st.seen
    · simp only [if_pos hmem]
      exact ⟨h1, h2⟩
    · simp only [if_neg hmem]
      have hseen := findSubLinks_seen_eq loc cd.subCands (main.href :: st.seen)
      have hfresh := findSubLinks_fresh loc cd.subCands (main.href :: st.seen)
      have hnodup := findSubLinks_nodup loc cd.subCands (main.href :: st.seen)
      set p := findSubLinks loc (main.href :: st.seen) cd.subCands with hp
      have hstate : stateHrefs
          { sections := st.sections,
            cur := { st.cur with items := st.cur.items ++ [{ main := main, subs := p.1 }] },
            seen := p.2 } =
          stateHrefs st ++ (main.href :: p.1.map Link.href) := by
        unfold stateHrefs secHrefs
        simp [itemLinkHrefs, List.flatMap_append]
      constructor
      · rw [hstate, List.nodup_append]
        refine ⟨h1, ?_, ?_⟩
        · rw [List.nodup_cons]
          refine ⟨?_, hnodup⟩
          intro hcontra
          rcases List.mem_map.mp hcontra with ⟨l, hl, hhl⟩
          exact hfresh l hl (hhl ▸ List.mem_cons_self _ _)
        · intro x hx hx2
          have hxseen : x ∈ st.seen := h2 x hx
          rcases List.mem_cons.mp hx2 with rfl | hx2
          · exact hmem hxseen
          · rcases List.mem_map.mp hx2 with ⟨l, hl, hhl⟩
            exact hfresh l hl (hhl ▸ List.mem_cons_of_mem _ hxseen)
      · intro x hx
        rw [hstate] at hx
        show x ∈ p.2
        rw [hseen]
        rcases List.mem_append.mp hx with hx | hx
        · exact List.mem_append_right _ (List.mem_cons_of_mem _ (h2 x hx))
        · rcases List.mem_cons.mp hx with rfl | hx
          · exact List.mem_append_right _ (List.mem_cons_self _ _)
          · exact List.mem_append_left _ (List.mem_reverse.mpr hx)

/-- One walker step preserves the invariant. -/
theorem stepNode_inv (loc : JsLocation) (e : NodeEvent) (st : ExtState)
    (h : ExtInv st) : ExtInv (stepNode loc st e) := by
  have hrest : ∀ st', ExtInv st' → ExtInv (stepNodeRest loc st' e) := by
    intro st' h'
    unfold stepNodeRest
    rcases e.sectionHeading with _ | ⟨txt, href⟩
    · rcases e.container with _ | cd
      · exact h'
      · exact processContainer_inv loc cd st' h'
    · rcases hch : checkSectionHeader txt href with _ | ⟨t2, h2⟩
      · rcases e.container with _ | cd
        · simpa [hch] using h'
        · simp only [hch]
          exact processContainer_inv loc cd st' h'
      · rcases e.container with _ | cd
        · simp only [hch]
          exact startNewSection_inv st' t2 2 h2 h'
        · simp only [hch]
          exact processContainer_inv loc cd _ (startNewSection_inv st' t2 2 h2 h')
  unfold stepNode
  rcases hh : e.h12 with _ | ⟨txt, href, level⟩
  · exact hrest st h
  · rcases hch : checkSectionHeader txt href with _ | ⟨t2, h2⟩
    · simp only [hch]
      exact hrest st h
    · simp only [hch]
      exact startNewSection_inv st t2 level h2 h

/-- The whole walk preserves the invariant. -/
theorem foldl_stepNode_inv (loc : JsLocation) (events : List NodeEvent) :
    ∀ st, ExtInv st → ExtInv (events.foldl (stepNode loc) st) := by
  induction events with
  | nil => intro st h; exact h
  | cons e rest ih =>
    intro st h
    exact ih (stepNode loc st e) (stepNode_inv loc e st h)

/-- Merging fallback items into the last section appends their hrefs
after all existing item hrefs. -/
theorem appendToLast_flatMap (items : List ListItem) :
    ∀ secs : List ListingSection, secs ≠ [] →
      (appendToLast items secs).flatMap secHrefs =
        secs.flatMap secHrefs ++ items.flatMap itemLinkHrefs := by
  intro secs
  induction secs with
  | nil => intro h; exact absurd rfl h
  | cons s rest ih =>
    intro _
    cases rest with
    | nil => simp [appendToLast, secHrefs, List.flatMap_append]
    | cons s2 rest2 =>
      simp only [appendToLast, List.flatMap_cons]
      rw [ih (by simp)]
      simp [List.append_assoc]

/-- For items without sub-links the href list is the main-href list. -/
theorem flatMap_itemLinkHrefs_of_subs_nil (items : List ListItem)
    (h : ∀ it ∈ items, it.subs = []) :
    items.flatMap itemLinkHrefs = items.map (fun it => it.main.href) := by
  induction items with
  | nil => rfl
  | cons it rest ih =>
    simp only [List.flatMap_cons, List.map_cons]
    rw [ih (fun x hx => h x (List.mem_cons_of_mem _ hx))]
    unfold itemLinkHrefs
    rw [h it (List.mem_cons_self _ _)]
    rfl

/-- Claim C1 (amended): within one extracted ListingData every item
href — every main link and every sub-link, across all sections — is
distinct: the seen-set de-duplication is global over the whole result.
(Section title links bypass the seen set; see the counterexample.) -/
theorem C1_itemHrefs_nodup (doc : ListingDoc) : (itemHrefs (extractListing doc)).Nodup := by
  have hinv0 : ExtInv
      { sections := [],
        cur := { title := none, level := none, titleHref := none, items := [] },
        seen := [] } := by
    constructor
    · simp [stateHrefs, secHrefs]
    · intro x hx
      simp [stateHrefs, secHrefs] at hx
  have hinv := foldl_stepNode_inv doc.loc doc.events _ hinv0
  obtain ⟨hnodup, hsub⟩ := hinv
  rw [itemHrefs_eq]
  simp only [extractListing]
  set st := doc.events.foldl (stepNode doc.loc)
    { sections := [],
      cur := { title := none, level := none, titleHref := none, items := [] },
      seen := [] } with hst
  set secs := if st.cur.items.isEmpty then st.sections else st.sections ++ [st.cur] with hsecs
  have hflat : secs.flatMap secHrefs = stateHrefs st := by
    by_cases hemp : st.cur.items.isEmpty
    · have hnil : secHrefs st.cur = [] := by
        unfold secHrefs
        rw [List.isEmpty_iff.mp hemp]
        rfl
      rw [hsecs, if_pos hemp]
      unfold stateHrefs
      rw [List.flatMap_append]
      simp [hnil]
    · rw [hsecs, if_neg hemp]
      rfl
  have hnodupS : (secs.flatMap secHrefs).Nodup := hflat ▸ hnodup
  have hsubS : ∀ x ∈ secs.flatMap secHrefs, x ∈ st.seen := by
    intro x hx
    exact hsub x (hflat ▸ hx)
  by_cases htot : ((secs.map (fun s => s.items.length)).sum) < 5
  · simp only [if_pos htot]
    set p := collectFallback doc.loc st.seen doc.fallbackLinks with hp
    have hsubs0 : ∀ it ∈ p.1, it.subs = [] :=
      fun it hit => collectFallback_subs_nil doc.loc doc.fallbackLinks st.seen it hit
    have hfresh0 : ∀ it ∈ p.1, it.main.href ∉ st.seen :=
      fun it hit => collectFallback_fresh doc.loc doc.fallbackLinks st.seen it hit
    have hmap : p.1.flatMap itemLinkHrefs = p.1.map (fun it => it.main.href) :=
      flatMap_itemLinkHrefs_of_subs_nil p.1 hsubs0
    have hnodupP : (p.1.flatMap itemLinkHrefs).Nodup := by
      rw [hmap]
      exact collectFallback_nodup doc.loc doc.fallbackLinks st.seen
    by_cases hempP : p.1.isEmpty
    · simp only [if_pos hempP]
      exact hnodupS
    · simp only [if_neg hempP]
      by_cases hempS : secs.isEmpty
      · simp only [if_pos hempS]
        have hone : ([{ title := none, level := none, titleHref := none, items := p.1 }] :
            List ListingSection).flatMap secHrefs = p.1.flatMap itemLinkHrefs := by
          simp [secHrefs]
        rw [hone]
        exact hnodupP
      · simp only [if_neg hempS]
        rw [appendToLast_flatMap p.1 secs (by
          intro hcontra
          rw [hcontra] at hempS
          exact hempS rfl)]
        rw [List.nodup_append]
        refine ⟨hnodupS, hnodupP, ?_⟩
        intro x hx hx2
        have hxseen : x ∈ st.seen := hsubS x hx
        rw [hmap] at hx2
        rcases List.mem_map.mp hx2 with ⟨it, hit, hhit⟩
        exact hfresh0 it hit (hhit ▸ hxseen)
  · simp only [if_neg htot]
    exact hnodupS
